import Mathlib

/-!
Verification of the yt-oi-screener core against its source.

Shallow embedding of:
- `src/app/screener/consumer.py` (class `Consumer`): the detection loop
  (`_process`, `_process_symbol`, `_calculate_open_interest`);
- `src/app/screener/producer.py` (class `Producer`): the sliding-window store
  (`_process_snapshot`) and the batched snapshot fetch
  (`_fetch_open_interest_snapshot_batched`).

Python floats are modelled by `Rat` (the concrete values of interest here,
for example 87.5, are exactly representable in both); timestamps (the "t"
fields, integer milliseconds compared against float thresholds) are also
`Rat`.  Fallible operations return `Option`: a Python function that returns
`None` after catching `ZeroDivisionError` is embedded as an `Option`-valued
function whose zero-divisor branch is an explicit `if`.
-/

/-- One open-interest sample, `OpenInterestItem` from unicex: field "t" is the
timestamp in milliseconds, field "v" the open-interest value. -/
structure OIItem where
  t : Rat
  v : Rat
deriving DecidableEq

/-- The two fields of a unicex `TickerDailyItem` that the consumer reads:
"p" (daily price change percent) and "q" (daily quote volume). -/
structure TickerDailyItem where
  p : Rat
  q : Rat
deriving DecidableEq

/-- The fields of `SettingsDTO` (app.models, not under src/) that
`consumer.py` reads: `is_ready`, `min_growth_prct`, `timeout` (cooldown
seconds) and `interval` (lookback seconds). -/
structure SettingsDTO where
  is_ready : Bool
  min_growth_prct : Rat
  timeout : Rat
  interval : Rat

/-- One step of the scan in `Consumer._calculate_open_interest`
(consumer.py lines 119-132) on an in-window value `v`.

The Python code keeps `_min` (initialised to `float("inf")`), `_max`
(initialised to `float("-inf")`) and a `found` flag.  Every sample value is
finite, so the first in-window sample always satisfies `v < _min` and takes
the min-branch; hence the state is faithfully represented as
`Option (Rat × Rat)`: `none` before any in-window sample was seen
(`found == False`), `some (mn, mx)` afterwards.  Within one iteration the
code first tests `v < _min` (setting both `_min` and `_max` to `v` — note
that after this reset `v > _max` is false), then tests `v > _max`. -/
def oiStep (s : Option (Rat × Rat)) (v : Rat) : Option (Rat × Rat) :=
  match s with
  | none => some (v, v)
  | some (mn, mx) =>
    if v < mn then some (v, v)
    else if mx < v then some (mn, v)
    else some (mn, mx)

/-- The time filter of `Consumer._calculate_open_interest` (lines 118-122):
an element is skipped (`continue`) when its "t" is strictly below
`(time.time() - self._settings.interval) * 1000`; `now` is `time.time()`
in seconds and `interval` is the lookback in seconds. -/
def inLookback (interval now : Rat) (el : OIItem) : Bool :=
  !decide (el.t < (now - interval) * 1000)

/-- `Consumer._calculate_open_interest` (consumer.py lines 111-144).
Returns `none` when no sample passed the time filter (`found == False`) and
when the final minimum is zero (the caught `ZeroDivisionError`), otherwise
`(max - min) / min * 100`. -/
def calculate_open_interest (interval now : Rat) (open_interest : List OIItem) :
    Option Rat :=
  match (open_interest.filter (inLookback interval now)).foldl
      (fun s el => oiStep s el.v) none with
  | none => none
  | some (mn, mx) => if mn = 0 then none else some ((mx - mn) / mn * 100)

/-- Modelled from the spec: the running-min comparison of the reference
growth algorithm, with `none` standing for the initial +infinity ("Maintain
running min (init +inf)"), so that every value compares strictly below the
initial state. -/
def ltRunningMin (v : Rat) : Option Rat → Bool
  | none => true
  | some m => decide (v < m)

/-- Modelled from the spec: the running-max comparison, with `none` standing
for the initial -infinity ("max (init -inf)"), so that every value compares
strictly above the initial state. -/
def gtRunningMax (v : Rat) : Option Rat → Bool
  | none => true
  | some m => decide (m < v)

/-- Modelled from the spec (section 4.4, growth algorithm): for each sample,
"if its value is strictly less than the current running min, set running min
to that value AND reset running max to that same value.  If its value is
strictly greater than the running max, update running max." -/
def specGrowthStep (s : Option Rat × Option Rat) (v : Rat) :
    Option Rat × Option Rat :=
  let s1 := if ltRunningMin v s.1 then (some v, some v) else s
  if gtRunningMax v s1.2 then (s1.1, some v) else s1

/-- Modelled from the spec (section 4.4): the reference single-pass growth
algorithm over the samples with "timestamp >= now - lookbackSeconds*1000"
(`nowMs` is the current time in milliseconds), running min initialised to
+infinity and running max to -infinity; undefined when no sample passed the
filter or the minimum is zero, otherwise `(max - min) / min * 100`. -/
def specGrowth (lookbackSeconds nowMs : Rat) (samples : List OIItem) :
    Option Rat :=
  match (samples.filter (fun el => decide (nowMs - lookbackSeconds * 1000 ≤ el.t))).foldl
      (fun s el => specGrowthStep s el.v) (none, none) with
  | (some mn, some mx) => if mn = 0 then none else some ((mx - mn) / mn * 100)
  | _ => none

/-- Correspondence between the code's scan state (`none` = nothing found yet,
the infinite initial sentinels) and the spec's pair of running min/max. -/
def embedState : Option (Rat × Rat) → Option Rat × Option Rat
  | none => (none, none)
  | some (mn, mx) => (some mn, some mx)

/-- Modelled from the spec: the unicex `TimeoutTracker` (the Cooldown
Tracker of section 4.3, whose code is not under src/): a per-key expiring
block map from symbol to an absolute unblock deadline; a key with no entry,
or whose deadline has passed, is unblocked. -/
structure TimeoutTracker where
  deadlines : String → Option Rat

/-- Modelled from the spec: a key is blocked exactly when it has an
unexpired block, i.e. the current time is still before its deadline. -/
def TimeoutTracker.is_blocked (tr : TimeoutTracker) (now : Rat) (key : String) :
    Bool :=
  match tr.deadlines key with
  | none => false
  | some d => decide (now < d)

/-- Modelled from the spec: blocking a key sets/overwrites its unblock
deadline to now + durationSeconds. -/
def TimeoutTracker.block (tr : TimeoutTracker) (now : Rat) (key : String)
    (duration : Rat) : TimeoutTracker :=
  ⟨fun k => if k = key then some (now + duration) else tr.deadlines k⟩

/-- The alert gate of `Consumer._process_symbol` (consumer.py line 94):
a notification task is created exactly when
`change_pct and change_pct > self._settings.min_growth_prct` holds.
Python truthiness makes this false when `change_pct` is `None` and also
when it equals `0.0`. -/
def qualifies (min_growth_prct : Rat) (change_pct : Option Rat) : Bool :=
  match change_pct with
  | none => false
  | some c => !decide (c = 0) && decide (min_growth_prct < c)

/-- One iteration of the symbol loop in `Consumer._process` (consumer.py
lines 67-79), acting on the state (notification tasks created so far,
timeout tracker): a blocked symbol is skipped; a symbol with no (falsy)
daily-ticker entry is skipped with a warning; otherwise, when
`_process_symbol` returns a task (the `qualifies` gate), the symbol is
blocked for `settings.timeout` seconds and the task recorded. -/
def tickStep (s : SettingsDTO) (now : Rat)
    (daily : String → Option TickerDailyItem)
    (st : List String × TimeoutTracker) (p : String × List OIItem) :
    List String × TimeoutTracker :=
  if st.2.is_blocked now p.1 then st
  else
    match daily p.1 with
    | none => st
    | some _ =>
      if qualifies s.min_growth_prct (calculate_open_interest s.interval now p.2)
      then (st.1 ++ [p.1], st.2.block now p.1 s.timeout)
      else st

/-- `Consumer._process` (consumer.py lines 61-83) on one detection tick:
fold the symbol loop over the collected windows, starting from no created
tasks and the current tracker.  The first component lists, in iteration
order, the symbols whose notification was dispatched this tick (the tasks
later awaited by `asyncio.gather`); the second is the tracker after the
tick. -/
def processTick (s : SettingsDTO) (now : Rat) (tr : TimeoutTracker)
    (daily : String → Option TickerDailyItem)
    (allKlines : List (String × List OIItem)) :
    List String × TimeoutTracker :=
  allKlines.foldl (tickStep s now daily) ([], tr)

/-- The per-symbol alert decision implicit in `Consumer._process`: not
blocked, truthy daily-ticker entry, and the `qualifies` gate on the growth
computation. -/
def alertDecision (s : SettingsDTO) (now : Rat) (tr : TimeoutTracker)
    (daily : String → Option TickerDailyItem) (p : String × List OIItem) :
    Bool :=
  !tr.is_blocked now p.1 && (daily p.1).isSome &&
    qualifies s.min_growth_prct (calculate_open_interest s.interval now p.2)

/-- One iteration of `Consumer.start` (consumer.py lines 45-53): when the
settings are not ready the tick is skipped entirely (`continue`), otherwise
`_process` runs. -/
def consumerTick (s : SettingsDTO) (now : Rat) (tr : TimeoutTracker)
    (daily : String → Option TickerDailyItem)
    (allKlines : List (String × List OIItem)) :
    List String × TimeoutTracker :=
  if s.is_ready then processTick s now tr daily allKlines else ([], tr)

/-- The inputs the detection loop reads at one tick: the settings (re-read
each tick, hot-swappable), the tick time, the daily-ticker cache and the
collected open-interest windows. -/
structure TickInput where
  settings : SettingsDTO
  now : Rat
  daily : String → Option TickerDailyItem
  allKlines : List (String × List OIItem)

/-- A run of consecutive detection-loop ticks, threading the timeout
tracker through; returns the list of per-tick dispatched-symbol lists. -/
def runTicks : TimeoutTracker → List TickInput → List (List String)
  | _, [] => []
  | tr, tk :: rest =>
    (consumerTick tk.settings tk.now tr tk.daily tk.allKlines).1 ::
      runTicks (consumerTick tk.settings tk.now tr tk.daily tk.allKlines).2 rest

/-- One detection tick of `Consumer._process` together with the gather
phase (consumer.py lines 81-82): the notification tasks created during the
symbol loop are awaited only after the whole loop, and each send may
succeed or fail (`sendOk`).  The first component is the list of symbols
whose notification send succeeded; the tracker is the one produced by the
symbol loop itself, in which every dispatched symbol was blocked at task
creation time, before any send was awaited. -/
def processTickWithSends (sendOk : String → Bool) (s : SettingsDTO) (now : Rat)
    (tr : TimeoutTracker) (daily : String → Option TickerDailyItem)
    (allKlines : List (String × List OIItem)) :
    List String × TimeoutTracker :=
  ((processTick s now tr daily allKlines).1.filter sendOk,
   (processTick s now tr daily allKlines).2)

/-- `Producer._MAX_HISTORY_LEN` (producer.py line 23): the retention
horizon in seconds, 60 * 15 = 15 minutes. -/
def MAX_HISTORY_LEN : Rat := 60 * 15

/-- The retention predicate of `Producer._process_snapshot` (producer.py
lines 170-174): an element is kept when its "t" is at least
`(time.time() - _MAX_HISTORY_LEN) * 1000`. -/
def withinHistory (now : Rat) (el : OIItem) : Bool :=
  decide (el.t ≥ (now - MAX_HISTORY_LEN) * 1000)

/-- `Producer._process_snapshot` (producer.py lines 166-176).  The store
`self._open_interest` is a `defaultdict(list)`, embedded as a total
function from symbol to list with default `[]`.  For each ticker present in
the snapshot (a Python dict, embedded as an association list iterated in
order), its sequence is pruned to the retention horizon and the new item
appended; other tickers are untouched. -/
def process_snapshot (now : Rat) (snapshot : List (String × OIItem))
    (store : String → List OIItem) : String → List OIItem :=
  snapshot.foldl
    (fun st p sym =>
      if sym = p.1 then (st p.1).filter (withinHistory now) ++ [p.2]
      else st sym)
    store

/-- The outcome of one per-symbol request `client.open_interest(ticker)` as
observed by `Producer._fetch_open_interest_snapshot_batched`: the awaited
task either raised an exception (collected by `asyncio.gather` with
`return_exceptions=True`), returned a falsy/empty response, or returned an
item. -/
inductive OIResponse where
  | exn : OIResponse
  | empty : OIResponse
  | ok : OIItem → OIResponse
deriving DecidableEq

/-- `Producer._fetch_open_interest_snapshot_batched` (producer.py lines
106-129): iterate the chunked ticker list; in each chunk, zip the tickers
with their responses (the response at index i is for the ticker at index i),
skip exceptions (logged as errors) and empty responses (logged as warnings),
and collect the remaining pairs into the result dict (embedded as an
association list built in insertion order).  The inter-chunk sleep has no
effect on the returned value. -/
def fetch_open_interest_snapshot_batched (chunks : List (List String))
    (resp : String → OIResponse) : List (String × OIItem) :=
  chunks.foldl
    (fun results chunk =>
      results ++ chunk.filterMap
        (fun ticker =>
          match resp ticker with
          | .exn => none
          | .empty => none
          | .ok item => some (ticker, item)))
    []

/-- Concrete settings used by the witnesses: ready, minGrowthPct 10,
cooldown 60 s, lookback 300 s. -/
def exSettings : SettingsDTO := ⟨true, 10, 60, 300⟩

/-- Concrete empty timeout tracker used by the witnesses. -/
def exTracker : TimeoutTracker := ⟨fun _ => none⟩

/-- Concrete daily-ticker cache used by the witnesses: every symbol has an
entry. -/
def exDaily : String → Option TickerDailyItem := fun _ => some ⟨0, 0⟩

/-- Concrete rising window used by the witnesses: open interest grows from
100 to 150 (50 percent) inside the lookback of `exSettings` at time 1000. -/
def exKlines : List OIItem := [⟨800000, 100⟩, ⟨810000, 150⟩]

/-- Concrete store used by the witnesses: every symbol holds one stale
sample (timestamp 0) and one fresh sample, relative to a merge at time
1000. -/
def exStore : String → List OIItem := fun _ => [⟨0, 1⟩, ⟨999500, 2⟩]

/-- Concrete follow-up tick used by the cooldown witness: one second after
the alerting tick at time 1000, still inside the 60 s cooldown. -/
def exTick2 : TickInput := ⟨exSettings, 1001, exDaily, [("A", exKlines)]⟩

lemma specGrowthStep_embedState (s : Option (Rat × Rat)) (v : Rat) :
    specGrowthStep (embedState s) v = embedState (oiStep s v) := by
  cases s with
  | none =>
      simp [specGrowthStep, embedState, oiStep, ltRunningMin, gtRunningMax]
  | some p =>
      obtain ⟨mn, mx⟩ := p
      by_cases h1 : v < mn
      · have h2 : ¬ v < v := lt_irrefl v
        simp [specGrowthStep, embedState, oiStep, ltRunningMin, gtRunningMax, h1, h2]
      · by_cases h3 : mx < v
        · simp [specGrowthStep, embedState, oiStep, ltRunningMin, gtRunningMax, h1, h3]
        · simp [specGrowthStep, embedState, oiStep, ltRunningMin, gtRunningMax, h1, h3]

lemma foldl_specGrowthStep_embedState (l : List OIItem) (s : Option (Rat × Rat)) :
    l.foldl (fun st el => specGrowthStep st el.v) (embedState s)
      = embedState (l.foldl (fun st el => oiStep st el.v) s) := by
  induction l generalizing s with
  | nil => rfl
  | cons el rest ih =>
      simp only [List.foldl_cons, specGrowthStep_embedState]
      exact ih (oiStep s el.v)

lemma inLookback_eq_spec_filter (interval now : Rat) (el : OIItem) :
    decide (now * 1000 - interval * 1000 ≤ el.t) = inLookback interval now el := by
  unfold inLookback
  rw [sub_mul, ← decide_not]
  exact decide_eq_decide.mpr not_lt.symm

/-- C1: The detection loop's growth computation
(`Consumer._calculate_open_interest`) equals the reference single-pass
algorithm of the spec (running min/max with the reset-max-on-new-min rule
over the time-filtered samples), and on the four in-window samples with
values 100, 80, 150, 90 it returns exactly 87.5. -/
theorem C1_growth_refinement :
    (∀ (interval now : Rat) (samples : List OIItem),
      specGrowth interval (now * 1000) samples
        = calculate_open_interest interval now samples) ∧
    calculate_open_interest 300 1000
      [⟨800000, 100⟩, ⟨810000, 80⟩, ⟨820000, 150⟩, ⟨830000, 90⟩]
      = some 87.5 := by
  constructor
  · intro interval now samples
    unfold specGrowth calculate_open_interest
    have hf : samples.filter
          (fun el => decide (now * 1000 - interval * 1000 ≤ el.t))
        = samples.filter (inLookback interval now) :=
      List.filter_congr (fun a _ => inLookback_eq_spec_filter interval now a)
    rw [hf]
    rw [show ((none, none) : Option Rat × Option Rat) = embedState none from rfl]
    rw [foldl_specGrowthStep_embedState]
    cases h : (samples.filter (inLookback interval now)).foldl
        (fun st el => oiStep st el.v) none with
    | none => simp [embedState]
    | some p =>
        obtain ⟨mn, mx⟩ := p
        simp [embedState]
  · norm_num [calculate_open_interest, inLookback, oiStep]

/-- C7: when the in-window scan drives the running minimum to zero, the
growth computation returns no value; the Python `ZeroDivisionError` is
caught (consumer.py lines 140-144), which the total embedding reflects by
the explicit zero test, so no exception escapes. -/
theorem C7_zero_min_no_signal :
    ∀ (interval now : Rat) (samples : List OIItem) (mx : Rat),
      (samples.filter (inLookback interval now)).foldl
          (fun s el => oiStep s el.v) none = some (0, mx) →
      calculate_open_interest interval now samples = none := by
  intro interval now samples mx h
  unfold calculate_open_interest
  rw [h]
  simp

/-- Witness for C7 at a concrete input: a single in-window sample with
value zero drives the running minimum to zero, and the computation returns
no value. -/
theorem C7_witness :
    calculate_open_interest 300 1000 [⟨800000, 0⟩] = none :=
  C7_zero_min_no_signal 300 1000 [⟨800000, 0⟩] 0
    (by norm_num [inLookback, oiStep])

/-- C8: a window with exactly one sample inside the lookback (of nonzero
value) yields changePct = 0 (min = max), reported as a value and not an
error, and the alert decision for such a window is negative on any tick
(a zero changePct is falsy in the gate of consumer.py line 94). -/
theorem C8_single_sample_zero_growth :
    ∀ (s : SettingsDTO) (now : Rat) (samples : List OIItem) (el : OIItem),
      samples.filter (inLookback s.interval now) = [el] →
      el.v ≠ 0 →
      calculate_open_interest s.interval now samples = some 0 ∧
      ∀ (tr : TimeoutTracker) (daily : String → Option TickerDailyItem)
        (sym : String), alertDecision s now tr daily (sym, samples) = false := by
  intro s now samples el hf hv
  have hcalc : calculate_open_interest s.interval now samples = some 0 := by
    unfold calculate_open_interest
    rw [hf]
    simp [oiStep, hv]
  refine ⟨hcalc, ?_⟩
  intro tr daily sym
  unfold alertDecision
  rw [hcalc]
  simp [qualifies]

/-- Witness for C8 at a concrete input: a single in-window sample of value
50 gives changePct = 0 and a negative alert decision. -/
theorem C8_witness :
    calculate_open_interest exSettings.interval 1000 [⟨800000, 50⟩] = some 0 ∧
    alertDecision exSettings 1000 exTracker exDaily ("A", [⟨800000, 50⟩]) = false := by
  have h := C8_single_sample_zero_growth exSettings 1000 [⟨800000, 50⟩]
    ⟨800000, 50⟩ (by norm_num [inLookback, exSettings]) (by norm_num)
  exact ⟨h.1, h.2 exTracker exDaily "A"⟩

lemma mem_filterMap_resp (resp : String → OIResponse) (chunk : List String)
    (sym : String) (item : OIItem) :
    (sym, item) ∈ chunk.filterMap
        (fun ticker =>
          match resp ticker with
          | .exn => none
          | .empty => none
          | .ok it => some (ticker, it)) ↔
      sym ∈ chunk ∧ resp sym = OIResponse.ok item := by
  rw [List.mem_filterMap]
  constructor
  · rintro ⟨a, ha, hg⟩
    cases hr : resp a with
    | exn => rw [hr] at hg; exact absurd hg (by simp)
    | empty => rw [hr] at hg; exact absurd hg (by simp)
    | ok it =>
        rw [hr] at hg
        simp only [Option.some.injEq, Prod.mk.injEq] at hg
        obtain ⟨h1, h2⟩ := hg
        subst h1; subst h2
        exact ⟨ha, hr⟩
  · rintro ⟨hs, hok⟩
    exact ⟨sym, hs, by rw [hok]⟩

lemma fetch_batched_go (resp : String → OIResponse) :
    ∀ (chunks : List (List String)) (acc : List (String × OIItem))
      (sym : String) (item : OIItem),
      ((sym, item) ∈ chunks.foldl
          (fun results chunk =>
            results ++ chunk.filterMap
              (fun ticker =>
                match resp ticker with
                | .exn => none
                | .empty => none
                | .ok it => some (ticker, it))) acc ↔
        (sym, item) ∈ acc ∨ (sym ∈ chunks.flatten ∧ resp sym = OIResponse.ok item)) := by
  intro chunks
  induction chunks with
  | nil => intro acc sym item; simp
  | cons c rest ih =>
      intro acc sym item
      rw [List.foldl_cons, ih, List.mem_append, mem_filterMap_resp,
        List.flatten_cons, List.mem_append]
      tauto

/-- C5: the batched open-interest snapshot contains exactly the
successfully answered, non-empty per-symbol requests; a failing or empty
request never removes the other symbols of its chunk or of later chunks. -/
theorem C5_batched_failures_skipped :
    ∀ (chunks : List (List String)) (resp : String → OIResponse)
      (sym : String) (item : OIItem),
      ((sym, item) ∈ fetch_open_interest_snapshot_batched chunks resp ↔
        sym ∈ chunks.flatten ∧ resp sym = OIResponse.ok item) := by
  intro chunks resp sym item
  unfold fetch_open_interest_snapshot_batched
  rw [fetch_batched_go]
  simp

lemma process_snapshot_absent :
    ∀ (now : Rat) (snapshot : List (String × OIItem))
      (store : String → List OIItem) (sym : String),
      sym ∉ snapshot.map Prod.fst →
      process_snapshot now snapshot store sym = store sym := by
  intro now snapshot
  induction snapshot with
  | nil => intro store sym _; rfl
  | cons p rest ih =>
      intro store sym h
      simp only [List.map_cons, List.mem_cons, not_or] at h
      obtain ⟨h1, h2⟩ := h
      show process_snapshot now rest _ sym = store sym
      rw [ih _ sym h2]
      simp [h1]

lemma process_snapshot_present :
    ∀ (now : Rat) (snapshot : List (String × OIItem))
      (store : String → List OIItem) (sym : String) (v : OIItem),
      (snapshot.map Prod.fst).Nodup → (sym, v) ∈ snapshot →
      process_snapshot now snapshot store sym
        = (store sym).filter (withinHistory now) ++ [v] := by
  intro now snapshot
  induction snapshot with
  | nil => intro store sym v _ hm; cases hm
  | cons p rest ih =>
      intro store sym v hnd hm
      simp only [List.map_cons, List.nodup_cons] at hnd
      obtain ⟨hp, hnd'⟩ := hnd
      rcases List.mem_cons.mp hm with he | hr
      · subst he
        show process_snapshot now rest _ sym = _
        rw [process_snapshot_absent now rest _ sym hp]
        simp
      · have hsym : sym ∈ rest.map Prod.fst :=
          List.mem_map.mpr ⟨(sym, v), hr, rfl⟩
        have hne : ¬ sym = p.1 := fun he => hp (he ▸ hsym)
        show process_snapshot now rest _ sym = _
        rw [ih _ sym v hnd' hr]
        simp [hne]

/-- C3 counterexample: a merge at time 1000000 with snapshot containing
only symbol "NEW" (whose new item has stale timestamp 0) retains for the
absent symbol "OLD" its stale sample of timestamp 0, and appends the stale
item for "NEW" unchecked, while timestamp 0 is far below
now - retentionHorizon. -/
theorem C3_counterexample :
    process_snapshot 1000000 [("NEW", ⟨0, 2⟩)]
        (fun sym => if sym = "OLD" then [⟨0, 1⟩] else []) "OLD" = [⟨0, 1⟩] ∧
    process_snapshot 1000000 [("NEW", ⟨0, 2⟩)]
        (fun sym => if sym = "OLD" then [⟨0, 1⟩] else []) "NEW" = [⟨0, 2⟩] ∧
    ¬ ((0 : Rat) ≥ (1000000 - MAX_HISTORY_LEN) * 1000) := by
  refine ⟨process_snapshot_absent 1000000 _ _ "OLD" (by simp), ?_,
    by norm_num [MAX_HISTORY_LEN]⟩
  norm_num [process_snapshot, withinHistory, MAX_HISTORY_LEN]

/-- C3 (amended): after a merge, for every symbol present in the snapshot
(snapshot keys distinct), every retained sample of that symbol either
satisfies timestamp at least now - retentionHorizon or is the newly
appended snapshot item; symbols absent from the snapshot may keep stale
samples and the appended item itself is not timestamp-checked. -/
theorem C3_retention_amended :
    ∀ (now : Rat) (snapshot : List (String × OIItem))
      (store : String → List OIItem) (sym : String) (v : OIItem),
      (snapshot.map Prod.fst).Nodup → (sym, v) ∈ snapshot →
      ∀ el ∈ process_snapshot now snapshot store sym,
        el.t ≥ (now - MAX_HISTORY_LEN) * 1000 ∨ el = v := by
  intro now snapshot store sym v hnd hm el hel
  rw [process_snapshot_present now snapshot store sym v hnd hm] at hel
  rcases List.mem_append.mp hel with h | h
  · left
    have := (List.mem_filter.mp h).2
    simpa [withinHistory] using this
  · right
    simpa using h

/-- Witness for C3 (amended) at a concrete input: the fresh surviving
sample of symbol "A" after a merge at time 1000 satisfies the retention
bound (and is not the appended item). -/
theorem C3_witness :
    (⟨999500, 2⟩ : OIItem).t ≥ ((1000 : Rat) - MAX_HISTORY_LEN) * 1000 ∨
    (⟨999500, 2⟩ : OIItem) = (⟨999000, 5⟩ : OIItem) :=
  C3_retention_amended 1000 [("A", ⟨999000, 5⟩)] exStore "A" ⟨999000, 5⟩
    (by simp) (by simp) ⟨999500, 2⟩
    (by norm_num [process_snapshot, withinHistory, MAX_HISTORY_LEN, exStore])

/-- C9: a merge mutates only the entries of snapshot-present symbols:
absent symbols keep exactly their stored sequence, and (for distinct
snapshot keys) a present symbol's new sequence is its pruned prior
sequence — an order-preserving sublist of the prior one — with the new
item appended at the end. -/
theorem C9_frame :
    ∀ (now : Rat) (snapshot : List (String × OIItem))
      (store : String → List OIItem),
      (∀ sym, sym ∉ snapshot.map Prod.fst →
        process_snapshot now snapshot store sym = store sym) ∧
      ((snapshot.map Prod.fst).Nodup → ∀ sym v, (sym, v) ∈ snapshot →
        process_snapshot now snapshot store sym
          = (store sym).filter (withinHistory now) ++ [v] ∧
        ((store sym).filter (withinHistory now)).Sublist (store sym)) := by
  intro now snapshot store
  refine ⟨fun sym h => process_snapshot_absent now snapshot store sym h,
    fun hnd sym v hm =>
      ⟨process_snapshot_present now snapshot store sym v hnd hm,
        List.filter_sublist _⟩⟩

/-- Witness for C9 at a concrete input: a merge of a snapshot containing
only "A" leaves "B" untouched and rewrites "A" to its pruned prior
sequence plus the new item. -/
theorem C9_witness :
    process_snapshot 1000 [("A", ⟨999000, 5⟩)] exStore "B" = exStore "B" ∧
    process_snapshot 1000 [("A", ⟨999000, 5⟩)] exStore "A"
      = (exStore "A").filter (withinHistory 1000) ++ [⟨999000, 5⟩] := by
  have h := C9_frame 1000 [("A", ⟨999000, 5⟩)] exStore
  exact ⟨h.1 "B" (by simp), (h.2 (by simp) "A" ⟨999000, 5⟩ (by simp)).1⟩

lemma is_blocked_block_ne (tr : TimeoutTracker) (now now2 d : Rat)
    (key k : String) (h : k ≠ key) :
    (tr.block now key d).is_blocked now2 k = tr.is_blocked now2 k := by
  simp [TimeoutTracker.block, TimeoutTracker.is_blocked, h]

lemma deadlines_block_ne (tr : TimeoutTracker) (now d : Rat)
    (key k : String) (h : k ≠ key) :
    (tr.block now key d).deadlines k = tr.deadlines k := by
  simp [TimeoutTracker.block, h]

lemma tickStep_eq_decision (s : SettingsDTO) (now : Rat)
    (daily : String → Option TickerDailyItem)
    (st : List String × TimeoutTracker) (p : String × List OIItem) :
    tickStep s now daily st p =
      if alertDecision s now st.2 daily p
      then (st.1 ++ [p.1], st.2.block now p.1 s.timeout)
      else st := by
  unfold tickStep alertDecision
  cases hb : st.2.is_blocked now p.1 with
  | true => simp [hb]
  | false =>
      cases hd : daily p.1 with
      | none => simp [hb, hd]
      | some x => simp [hb, hd]

lemma processTick_go_alerts (s : SettingsDTO) (now : Rat)
    (daily : String → Option TickerDailyItem) (tr : TimeoutTracker) :
    ∀ (l : List (String × List OIItem)) (acc : List String)
      (tr2 : TimeoutTracker),
      (l.map Prod.fst).Nodup →
      (∀ p ∈ l, tr2.is_blocked now p.1 = tr.is_blocked now p.1) →
      (l.foldl (tickStep s now daily) (acc, tr2)).1
        = acc ++ (l.filter (alertDecision s now tr daily)).map Prod.fst := by
  intro l
  induction l with
  | nil => intro acc tr2 _ _; simp
  | cons p rest ih =>
      intro acc tr2 hnd hag
      simp only [List.map_cons, List.nodup_cons] at hnd
      obtain ⟨hp, hnd'⟩ := hnd
      have hdec : alertDecision s now tr2 daily p = alertDecision s now tr daily p := by
        unfold alertDecision
        rw [hag p (List.mem_cons_self p rest)]
      rw [List.foldl_cons, tickStep_eq_decision]
      cases hd : alertDecision s now tr daily p with
      | true =>
          rw [show (acc, tr2).2 = tr2 from rfl, hdec, hd]
          simp only [if_true]
          rw [ih (acc ++ [p.1]) (tr2.block now p.1 s.timeout) hnd'
            (fun q hq => by
              have hqne : q.1 ≠ p.1 := by
                intro he
                exact hp (he ▸ List.mem_map.mpr ⟨q, hq, rfl⟩)
              rw [is_blocked_block_ne tr2 now now s.timeout p.1 q.1 hqne]
              exact hag q (List.mem_cons_of_mem p hq))]
          rw [List.filter_cons_of_pos (by rw [hd])]
          simp
      | false =>
          rw [show (acc, tr2).2 = tr2 from rfl, hdec, hd]
          rw [if_neg Bool.false_ne_true]
          rw [ih acc tr2 hnd' (fun q hq => hag q (List.mem_cons_of_mem p hq))]
          rw [List.filter_cons_of_neg (by rw [hd]; exact Bool.false_ne_true)]

lemma processTick_go_deadlines (s : SettingsDTO) (now : Rat)
    (daily : String → Option TickerDailyItem) :
    ∀ (l : List (String × List OIItem)) (st : List String × TimeoutTracker)
      (k : String) (dl : Option Rat),
      (st.2.deadlines k = if k ∈ st.1 then some (now + s.timeout) else dl) →
      ((l.foldl (tickStep s now daily) st).2.deadlines k
        = if k ∈ (l.foldl (tickStep s now daily) st).1
          then some (now + s.timeout) else dl) := by
  intro l
  induction l with
  | nil => intro st k dl h; exact h
  | cons p rest ih =>
      intro st k dl h
      rw [List.foldl_cons, tickStep_eq_decision]
      cases hd : alertDecision s now st.2 daily p with
      | true =>
          rw [if_pos rfl]
          apply ih
          by_cases hk : k = p.1
          · subst hk
            simp [TimeoutTracker.block, List.mem_append]
          · rw [deadlines_block_ne st.2 now s.timeout p.1 k hk, h]
            simp [List.mem_append, hk]
      | false =>
          rw [if_neg Bool.false_ne_true]
          exact ih st k dl h

lemma processTick_alerts (s : SettingsDTO) (now : Rat) (tr : TimeoutTracker)
    (daily : String → Option TickerDailyItem)
    (allKlines : List (String × List OIItem))
    (hnd : (allKlines.map Prod.fst).Nodup) :
    (processTick s now tr daily allKlines).1
      = (allKlines.filter (alertDecision s now tr daily)).map Prod.fst := by
  unfold processTick
  rw [processTick_go_alerts s now daily tr allKlines [] tr hnd (fun _ _ => rfl)]
  simp

lemma processTick_deadlines (s : SettingsDTO) (now : Rat) (tr : TimeoutTracker)
    (daily : String → Option TickerDailyItem)
    (allKlines : List (String × List OIItem)) (k : String) :
    (processTick s now tr daily allKlines).2.deadlines k
      = if k ∈ (processTick s now tr daily allKlines).1
        then some (now + s.timeout) else tr.deadlines k := by
  unfold processTick
  apply processTick_go_deadlines
  simp

lemma mem_filter_map_fst {α : Type} (d : String × α → Bool) :
    ∀ (l : List (String × α)) (sym : String) (x : α),
      (l.map Prod.fst).Nodup → (sym, x) ∈ l →
      (sym ∈ (l.filter d).map Prod.fst ↔ d (sym, x) = true) := by
  intro l
  induction l with
  | nil => intro sym x _ hm; cases hm
  | cons q rest ih =>
      intro sym x hnd hm
      simp only [List.map_cons, List.nodup_cons] at hnd
      obtain ⟨hq, hnd'⟩ := hnd
      rcases List.mem_cons.mp hm with he | hr
      · subst he
        cases hd : d (sym, x) with
        | true =>
            rw [List.filter_cons_of_pos (by rw [hd])]
            simp
        | false =>
            rw [List.filter_cons_of_neg (by rw [hd]; exact Bool.false_ne_true)]
            constructor
            · intro hmem
              exfalso
              rcases List.mem_map.mp hmem with ⟨q', hq', hfst⟩
              exact hq (hfst ▸ List.mem_map.mpr ⟨q', List.mem_of_mem_filter hq', rfl⟩)
            · intro hfalse
              exact absurd hfalse Bool.false_ne_true
      · have hsym : sym ∈ rest.map Prod.fst := List.mem_map.mpr ⟨(sym, x), hr, rfl⟩
        have hne : sym ≠ q.1 := fun he => hq (he ▸ hsym)
        cases hd : d q with
        | true =>
            rw [List.filter_cons_of_pos (by rw [hd])]
            simp only [List.map_cons, List.mem_cons]
            rw [ih sym x hnd' hr]
            constructor
            · rintro (he | h2)
              · exact absurd he hne
              · exact h2
            · exact Or.inr
        | false =>
            rw [List.filter_cons_of_neg (by rw [hd]; exact Bool.false_ne_true)]
            exact ih sym x hnd' hr

/-- C4 counterexample: with minGrowthPct = -5 and a window whose changePct
is exactly 0 (a single in-window sample), the symbol is unblocked, has a
daily-ticker entry, changePct is defined and strictly greater than
minGrowthPct, and yet no notification is dispatched: the gate
`if change_pct and ...` of consumer.py line 94 treats 0.0 as falsy. -/
theorem C4_counterexample :
    (consumerTick ⟨true, -5, 60, 300⟩ 1000 exTracker exDaily
        [("A", [⟨800000, 50⟩])]).1 = [] ∧
    exTracker.is_blocked 1000 "A" = false ∧
    (exDaily "A").isSome = true ∧
    calculate_open_interest (300 : Rat) 1000 [⟨800000, 50⟩] = some 0 ∧
    ((0 : Rat) > -5) := by
  refine ⟨?_, by simp [exTracker, TimeoutTracker.is_blocked], by simp [exDaily],
    ?_, by norm_num⟩
  · norm_num [consumerTick, processTick, tickStep, exTracker, exDaily,
      TimeoutTracker.is_blocked, qualifies, calculate_open_interest,
      inLookback, oiStep]
  · norm_num [calculate_open_interest, inLookback, oiStep]

/-- C4 (amended): on a ready tick with distinct symbols, a notification is
dispatched for a symbol if and only if it is not blocked, a daily-ticker
entry exists, and its changePct is defined, nonzero and strictly greater
than minGrowthPct (Python truthiness also skips a changePct of exactly 0);
and the tracker deadline of the symbol is set to now + cooldown exactly
when it was dispatched, otherwise left unchanged. -/
theorem C4_alert_gate_amended :
    ∀ (s : SettingsDTO) (now : Rat) (tr : TimeoutTracker)
      (daily : String → Option TickerDailyItem)
      (allKlines : List (String × List OIItem)) (sym : String)
      (klines : List OIItem),
      s.is_ready = true →
      (allKlines.map Prod.fst).Nodup →
      (sym, klines) ∈ allKlines →
      ((sym ∈ (consumerTick s now tr daily allKlines).1 ↔
          tr.is_blocked now sym = false ∧ (daily sym).isSome = true ∧
          ∃ c, calculate_open_interest s.interval now klines = some c ∧
            c ≠ 0 ∧ s.min_growth_prct < c) ∧
        (consumerTick s now tr daily allKlines).2.deadlines sym =
          (if sym ∈ (consumerTick s now tr daily allKlines).1
           then some (now + s.timeout) else tr.deadlines sym)) := by
  intro s now tr daily allKlines sym klines hr hnd hmem
  have hct : consumerTick s now tr daily allKlines
      = processTick s now tr daily allKlines := by
    simp [consumerTick, hr]
  rw [hct]
  constructor
  · rw [processTick_alerts s now tr daily allKlines hnd]
    rw [mem_filter_map_fst (alertDecision s now tr daily) allKlines sym klines
      hnd hmem]
    unfold alertDecision
    cases hcp : calculate_open_interest s.interval now klines with
    | none =>
        simp [qualifies, hcp]
    | some c =>
        simp only [qualifies, hcp, Bool.and_eq_true, Bool.not_eq_true']
        constructor
        · rintro ⟨⟨hb, hd⟩, hq⟩
          simp only [Bool.and_eq_true, Bool.not_eq_true', decide_eq_true_eq,
            decide_eq_false_iff_not] at hq
          exact ⟨hb, hd, c, rfl, hq.1, hq.2⟩
        · rintro ⟨hb, hd, c', hc', hne, hgt⟩
          have hcc : c = c' := by
            injection hc'
          subst hcc
          refine ⟨⟨hb, hd⟩, ?_⟩
          simp only [Bool.and_eq_true, Bool.not_eq_true', decide_eq_true_eq,
            decide_eq_false_iff_not]
          exact ⟨hne, hgt⟩
  · exact processTick_deadlines s now tr daily allKlines sym

lemma exAlert_mem :
    "A" ∈ (processTick exSettings 1000 exTracker exDaily [("A", exKlines)]).1 := by
  norm_num [processTick, tickStep, exSettings, exTracker, exDaily, exKlines,
    TimeoutTracker.is_blocked, qualifies, calculate_open_interest,
    inLookback, oiStep]

/-- Witness for C4 (amended) at a concrete input: the rising window of
symbol "A" (changePct 50, threshold 10) is dispatched and its deadline
armed to 1000 + 60. -/
theorem C4_witness :
    "A" ∈ (consumerTick exSettings 1000 exTracker exDaily [("A", exKlines)]).1 ∧
    (consumerTick exSettings 1000 exTracker exDaily [("A", exKlines)]).2.deadlines "A"
      = some (1000 + exSettings.timeout) := by
  have h := C4_alert_gate_amended exSettings 1000 exTracker exDaily
    [("A", exKlines)] "A" exKlines rfl (by simp) (by simp)
  have hmem : "A" ∈ (consumerTick exSettings 1000 exTracker exDaily
      [("A", exKlines)]).1 :=
    h.1.mpr ⟨by simp [exTracker, TimeoutTracker.is_blocked],
      by simp [exDaily], 50,
      by norm_num [calculate_open_interest, inLookback, oiStep, exKlines,
        exSettings],
      by norm_num, by norm_num [exSettings]⟩
  exact ⟨hmem, by rw [h.2, if_pos hmem]⟩

lemma blocked_fold_no_alert (s : SettingsDTO) (now : Rat)
    (daily : String → Option TickerDailyItem) (sym : String) (d : Rat)
    (hlt : now < d) :
    ∀ (l : List (String × List OIItem)) (st : List String × TimeoutTracker),
      sym ∉ st.1 → st.2.deadlines sym = some d →
      sym ∉ (l.foldl (tickStep s now daily) st).1 ∧
      (l.foldl (tickStep s now daily) st).2.deadlines sym = some d := by
  intro l
  induction l with
  | nil => intro st h1 h2; exact ⟨h1, h2⟩
  | cons p rest ih =>
      intro st h1 h2
      rw [List.foldl_cons, tickStep_eq_decision]
      cases hd : alertDecision s now st.2 daily p with
      | true =>
          rw [if_pos rfl]
          have hne : p.1 ≠ sym := by
            intro he
            have hbl : st.2.is_blocked now p.1 = true := by
              unfold TimeoutTracker.is_blocked
              rw [he, h2]
              simpa using hlt
            have : (!st.2.is_blocked now p.1) = true := by
              unfold alertDecision at hd
              exact (Bool.and_eq_true _ _ |>.mp
                ((Bool.and_eq_true _ _ |>.mp hd).1)).1
            rw [hbl] at this
            exact absurd this (by simp)
          apply ih
          · intro hin
            rcases List.mem_append.mp hin with hin1 | hin2
            · exact h1 hin1
            · exact hne (List.mem_singleton.mp hin2).symm
          · rw [deadlines_block_ne st.2 now s.timeout p.1 sym
              (fun he => hne he.symm)]
            exact h2
      | false =>
          rw [if_neg Bool.false_ne_true]
          exact ih st h1 h2

lemma consumer_blocked_tick (s : SettingsDTO) (now : Rat) (tr : TimeoutTracker)
    (daily : String → Option TickerDailyItem)
    (allKlines : List (String × List OIItem)) (sym : String) (d : Rat)
    (hdl : tr.deadlines sym = some d) (hlt : now < d) :
    sym ∉ (consumerTick s now tr daily allKlines).1 ∧
    (consumerTick s now tr daily allKlines).2.deadlines sym = some d := by
  unfold consumerTick
  cases hr : s.is_ready with
  | false =>
      rw [if_neg Bool.false_ne_true]
      exact ⟨List.not_mem_nil sym, hdl⟩
  | true =>
      rw [if_pos rfl]
      exact blocked_fold_no_alert s now daily sym d hlt allKlines ([], tr)
        (List.not_mem_nil sym) hdl

lemma runTicks_no_alert :
    ∀ (ticks : List TickInput) (tr : TimeoutTracker) (sym : String) (d : Rat),
      tr.deadlines sym = some d →
      (∀ tk ∈ ticks, tk.now < d) →
      ∀ al ∈ runTicks tr ticks, sym ∉ al := by
  intro ticks
  induction ticks with
  | nil => intro tr sym d _ _ al hal; cases hal
  | cons tk rest ih =>
      intro tr sym d hdl htimes al hal
      have hb := consumer_blocked_tick tk.settings tk.now tr tk.daily
        tk.allKlines sym d hdl (htimes tk (List.mem_cons_self tk rest))
      rcases List.mem_cons.mp hal with he | hr
      · rw [he]; exact hb.1
      · exact ih _ sym d hb.2
          (fun tk2 h2 => htimes tk2 (List.mem_cons_of_mem tk h2)) al hr

/-- C2: once a tick dispatches an alert for a symbol (arming its cooldown
deadline at now + cooldownSeconds), no later tick whose time is still
before that deadline dispatches a second alert for the same symbol,
whatever windows, daily data and settings those ticks see. -/
theorem C2_cooldown :
    ∀ (s : SettingsDTO) (now : Rat) (tr : TimeoutTracker)
      (daily : String → Option TickerDailyItem)
      (allKlines : List (String × List OIItem)) (sym : String)
      (ticks : List TickInput),
      sym ∈ (processTick s now tr daily allKlines).1 →
      (∀ tk ∈ ticks, tk.now < now + s.timeout) →
      ∀ al ∈ runTicks (processTick s now tr daily allKlines).2 ticks,
        sym ∉ al := by
  intro s now tr daily allKlines sym ticks hmem htimes
  have hdl : (processTick s now tr daily allKlines).2.deadlines sym
      = some (now + s.timeout) := by
    rw [processTick_deadlines, if_pos hmem]
  exact runTicks_no_alert ticks _ sym (now + s.timeout) hdl htimes

/-- Witness for C2 at a concrete input: after the alert for "A" at time
1000 (cooldown 60 s), the tick at time 1001 dispatches nothing for "A". -/
theorem C2_witness :
    "A" ∉ (consumerTick exSettings 1001
      (processTick exSettings 1000 exTracker exDaily [("A", exKlines)]).2
      exDaily [("A", exKlines)]).1 :=
  C2_cooldown exSettings 1000 exTracker exDaily [("A", exKlines)] "A"
    [exTick2] exAlert_mem
    (by intro tk htk
        rw [List.mem_singleton.mp htk]
        norm_num [exTick2, exSettings])
    _
    (by simp [runTicks, exTick2])

/-- C10: the tracker state after a tick — in particular the cooldown
deadline now + cooldownSeconds armed for every dispatched symbol — does
not depend on the outcomes of the notification sends, because the block
happens at task-creation time inside the symbol loop and the sends are
awaited only afterwards (consumer.py lines 76-82). -/
theorem C10_armed_before_send :
    ∀ (sendOk : String → Bool) (s : SettingsDTO) (now : Rat)
      (tr : TimeoutTracker) (daily : String → Option TickerDailyItem)
      (allKlines : List (String × List OIItem)) (sym : String),
      sym ∈ (processTick s now tr daily allKlines).1 →
      (processTickWithSends sendOk s now tr daily allKlines).2
          = (processTick s now tr daily allKlines).2 ∧
      (processTickWithSends sendOk s now tr daily allKlines).2.deadlines sym
          = some (now + s.timeout) := by
  intro sendOk s now tr daily allKlines sym hmem
  refine ⟨rfl, ?_⟩
  show (processTick s now tr daily allKlines).2.deadlines sym = _
  rw [processTick_deadlines, if_pos hmem]

/-- Witness for C10 at a concrete input: even when every send fails, the
deadline of the dispatched symbol "A" is armed to 1000 + 60. -/
theorem C10_witness :
    (processTickWithSends (fun _ => false) exSettings 1000 exTracker exDaily
        [("A", exKlines)]).2
      = (processTick exSettings 1000 exTracker exDaily [("A", exKlines)]).2 ∧
    (processTickWithSends (fun _ => false) exSettings 1000 exTracker exDaily
        [("A", exKlines)]).2.deadlines "A" = some (1000 + exSettings.timeout) :=
  C10_armed_before_send (fun _ => false) exSettings 1000 exTracker exDaily
    [("A", exKlines)] "A" exAlert_mem
